import Mathlib

/-!
Shallow embedding of the Juice Box level-generation core.

Randomness model: every `Math.random()` call in the source is one element of an
abstract stream `g : Nat → Nat` consumed at a running index `k`.  A call used as
`Math.floor(Math.random() * n)` is modelled as `g k % n` (any value in `[0, n)`
is realisable), and a call used as `Math.random() < 0.5` is modelled as
`g k % 2 = 0`.  All generator functions thread the stream index explicitly.
-/

namespace JuiceBox

/-- Sprite catalog of level.js / discover-the-duplicate.js (20 names). -/
def ALL_SPRITES : List String :=
  ["apple-green", "apple-red", "avocado", "banana", "carrot",
   "cherries", "coconut", "cucumber", "grapes", "greens",
   "kiwi", "lemon", "mango", "melon", "peach",
   "pear", "pineapple", "strawberry", "tangerine",
   "watermelon"]

/-- MAX_CELLS from level.js: catalog size plus one duplicate. -/
def MAX_CELLS : Nat := ALL_SPRITES.length + 1

/-- Swap the entries at positions `i` and `j`, as the destructuring assignment
`[a[i], a[j]] = [a[j], a[i]]` does (both reads happen before the writes). -/
def listSwap [Inhabited α] (l : List α) (i j : Nat) : List α :=
  (l.set i (l.getD j default)).set j (l.getD i default)

/-- Fisher-Yates shuffle body from level.js: loop variable `i` counts down,
each iteration draws `j = Math.floor(Math.random() * (i + 1))` and swaps. -/
def shuffleAux [Inhabited α] (g : Nat → Nat) : Nat → Nat → List α → List α × Nat
  | k, 0, a => (a, k)
  | k, i + 1, a => shuffleAux g (k + 1) i (listSwap a (i + 1) (g k % (i + 2)))

/-- `shuffle` from level.js: a new randomly-ordered copy of `array`.
Returns the shuffled list together with the next unused stream index. -/
def shuffle [Inhabited α] (g : Nat → Nat) (k : Nat) (l : List α) : List α × Nat :=
  shuffleAux g k (l.length - 1) l

/-- `areAdjacent` from part_008 (parameterised over `numColumns`): positions are
8-directionally adjacent iff row and column distances are both at most 1 and
not both 0. -/
def areAdjacent (pos1 pos2 numColumns : Nat) : Bool :=
  let row1 := pos1 / numColumns
  let col1 := pos1 % numColumns
  let row2 := pos2 / numColumns
  let col2 := pos2 % numColumns
  let rowDiff := ((row1 : Int) - (row2 : Int)).natAbs
  let colDiff := ((col1 : Int) - (col2 : Int)).natAbs
  (rowDiff == 0 && colDiff == 1) || (colDiff == 0 && rowDiff == 1) ||
    (rowDiff == 1 && colDiff == 1)

/-- Indices where `items` holds `mac` (the `macguffinIndices` accumulation in
`generateLevel`). -/
def macIndices (items : List String) (mac : String) : List Nat :=
  (List.range items.length).filter (fun i => items.getD i "" == mac)

/-- The adjacency-fix tail of `generateLevel`: if the two macguffin positions
are adjacent, swap the second with a random position that is neither macguffin
position nor adjacent to the first; if no such position exists, keep the
list unchanged (fallback). -/
def fixAdjacency (cols : Nat) (g : Nat → Nat) (k : Nat)
    (items : List String) (mac : String) : List String :=
  let mis := macIndices items mac
  let mi0 := mis.getD 0 0
  let mi1 := mis.getD 1 0
  if areAdjacent mi0 mi1 cols then
    let validSwapPositions := (List.range items.length).filter
      (fun i => i != mi0 && i != mi1 && !areAdjacent mi0 i cols)
    if 0 < validSwapPositions.length then
      let swapIndex := validSwapPositions.getD (g k % validSwapPositions.length) 0
      listSwap items mi1 swapIndex
    else items
  else items

/-- Sprite-subset selection of `generateLevel`: all 20 sprites plus a duplicate
when the grid is full size, otherwise `totalCells - 1` random distinct sprites
plus a duplicate of a random one of them.  Returns (chosen, macguffin, next
stream index). -/
def chooseSprites (totalCells : Nat) (g : Nat → Nat) : List String × String × Nat :=
  if totalCells ≥ MAX_CELLS then
    let (sh, k1) := shuffle g 0 ALL_SPRITES
    let mac := sh.getD (g k1 % sh.length) ""
    (sh ++ [mac], mac, k1 + 1)
  else
    let (sh, k1) := shuffle g 0 ALL_SPRITES
    let chosen := sh.take (totalCells - 1)
    let mac := chosen.getD (g k1 % chosen.length) ""
    (chosen ++ [mac], mac, k1 + 1)

/-- `generateLevel` from level.js (equally `generateDiscoverLevel`), with the
actual grid dimensions passed explicitly: choose the sprite multiset, shuffle
it for display order, then run the adjacency fix.  Returns (items, macguffin). -/
def generateLevel (cols rows : Nat) (g : Nat → Nat) : List String × String :=
  let totalCells := cols * rows
  let (chosen, mac, k) := chooseSprites totalCells g
  let (items, k2) := shuffle g k chosen
  (fixAdjacency cols g k2 items mac, mac)

/-- One step of the dimension-reduction loop: decrement whichever dimension is
greater or equal (ties shrink columns). -/
def reduceStep (p : Nat × Nat) : Nat × Nat :=
  if p.1 ≥ p.2 then (p.1 - 1, p.2) else (p.1, p.2 - 1)

/-- The `while (totalCells > maxCells)` loop of `reduceDimensions`. -/
def reduceLoop (maxCells cols rows : Nat) : Nat × Nat :=
  if maxCells < cols * rows then
    if cols ≥ rows then reduceLoop maxCells (cols - 1) rows
    else reduceLoop maxCells cols (rows - 1)
  else (cols, rows)
termination_by cols + rows
decreasing_by
  · rename_i hguard hge
    have hc : cols ≠ 0 := fun h0 => by rw [h0, Nat.zero_mul] at hguard; omega
    omega
  · rename_i hguard hlt
    omega

/-- `reduceDimensions` from part_008: reduce desired dimensions until the
product fits within `maxCells`. -/
def reduceDimensions (desiredCols desiredRows maxCells : Nat) : Nat × Nat :=
  reduceLoop maxCells desiredCols desiredRows

/-- Filler sprites of the Peach Party mode. -/
def FILLER_SPRITES : List String := ["apple-red", "tangerine", "mango"]

/-- The Peach Party target sprite. -/
def TARGET : String := "peach"

/-- `fillWithRandom` from part_008: `count` independent uniform draws from
`sourceSprites`, duplicates allowed. -/
def fillWithRandom (g : Nat → Nat) (k : Nat) : Nat → List String → List String
  | 0, _ => []
  | n + 1, src => src.getD (g k % src.length) "" :: fillWithRandom g (k + 1) n src

/-- `ensureTargetPresent` from part_008: if no cell holds the target, replace a
random cell with it.  Returns the list and the next unused stream index. -/
def ensureTargetPresent (g : Nat → Nat) (k : Nat) (items : List String)
    (target : String) : List String × Nat :=
  if items.any (· == target) then (items, k)
  else (items.set (g k % items.length) target, k + 1)

/-- `addExtraTargetsByChance` from part_008: `extraRuns` trials, each with 50%
chance of overwriting one random non-target cell with the target. -/
def addExtraTargetsByChance (g : Nat → Nat) (k : Nat) (items : List String)
    (target : String) : Nat → List String
  | 0 => items
  | n + 1 =>
    if g k % 2 = 0 then
      let nonTargetIndices := (List.range items.length).filter
        (fun i => !(items.getD i "" == target))
      if 0 < nonTargetIndices.length then
        addExtraTargetsByChance g (k + 2)
          (items.set (nonTargetIndices.getD (g (k + 1) % nonTargetIndices.length) 0) target)
          target n
      else addExtraTargetsByChance g (k + 1) items target n
    else addExtraTargetsByChance g (k + 1) items target n

/-- `generateLevelForTheModeCalledPeachParty` from peach-party.js: fill the
grid from the filler set, guarantee at least one target, then run three
50%-chance extra-target trials. -/
def generateLevelForTheModeCalledPeachParty (cols rows : Nat) (g : Nat → Nat) :
    List String :=
  let totalCells := cols * rows
  let items := fillWithRandom g 0 totalCells FILLER_SPRITES
  let (items1, k1) := ensureTargetPresent g totalCells items TARGET
  addExtraTargetsByChance g k1 items1 TARGET 3

/-- Outcome of one activation, after part_006's checkWin return convention:
`false` → reject, `undefined` → accept-continue, `true` → accept-complete. -/
inductive Outcome where
  | reject
  | acceptContinue
  | acceptComplete
deriving DecidableEq, Repr

/-- A grid cell as the evaluator sees it: its `data-sprite` attribute and
whether it carries the `removed` class. -/
structure Cell where
  sprite : String
  removed : Bool
deriving DecidableEq, Repr

/-- Default cell for out-of-range reads. -/
def cellDefault : Cell := ⟨"", false⟩

/-- The selector `.cell:not(.removed)` filtered to target sprites: a cell that
still counts toward the win condition. -/
def livePred (targets : List String) (x : Cell) : Bool :=
  !x.removed && targets.contains x.sprite

/-- `checkWinClickToRemove` from part_008, on the grid state: reject when the
activated cell's sprite is not a target; otherwise mark the cell removed and
report complete exactly when no unremoved target cells remain. -/
def checkWinClickToRemove (grid : List Cell) (i : Nat) (targets : List String) :
    Outcome × List Cell :=
  let c := grid.getD i cellDefault
  if !targets.contains c.sprite then (.reject, grid)
  else
    let grid1 := grid.set i ⟨c.sprite, true⟩
    let remaining := grid1.filter (livePred targets)
    if remaining.length = 0 then (.acceptComplete, grid1) else (.acceptContinue, grid1)

/-- Run a sequence of activations through `checkWinClickToRemove`, threading
the grid state, and collect the outcomes. -/
def runActivations (targets : List String) : List Cell → List Nat → List Outcome
  | _, [] => []
  | grid, i :: rest =>
    let r := checkWinClickToRemove grid i targets
    r.1 :: runActivations targets r.2 rest

/-! ### Dimension-resolver lemmas -/

lemma reduceLoop_product_le (m c r : Nat) :
    (reduceLoop m c r).1 * (reduceLoop m c r).2 ≤ m := by
  induction c, r using reduceLoop.induct m with
  | case1 c r h hge ih => rw [reduceLoop]; simp only [if_pos h, if_pos hge]; exact ih
  | case2 c r h hge ih => rw [reduceLoop]; simp only [if_pos h, if_neg hge]; exact ih
  | case3 c r h => rw [reduceLoop]; simp only [if_neg h]; omega

lemma reduceLoop_fst_le (m c r : Nat) :
    (reduceLoop m c r).1 ≤ c ∧ (reduceLoop m c r).2 ≤ r := by
  induction c, r using reduceLoop.induct m with
  | case1 c r h hge ih =>
    rw [reduceLoop]; simp only [if_pos h, if_pos hge]; omega
  | case2 c r h hge ih =>
    rw [reduceLoop]; simp only [if_pos h, if_neg hge]; omega
  | case3 c r h => rw [reduceLoop]; simp only [if_neg h]; omega

lemma reduceLoop_pos (m : Nat) (hm : 1 ≤ m) :
    ∀ c r, 1 ≤ c → 1 ≤ r →
      1 ≤ (reduceLoop m c r).1 ∧ 1 ≤ (reduceLoop m c r).2 := by
  intro c r
  induction c, r using reduceLoop.induct m with
  | case1 c r h hge ih =>
    intro hc hr
    rw [reduceLoop]; simp only [if_pos h, if_pos hge]
    have h2 : 2 ≤ c := by
      rcases Nat.lt_or_ge c 2 with hlt | hge2
      · interval_cases c
        omega
      · exact hge2
    exact ih (by omega) hr
  | case2 c r h hge ih =>
    intro hc hr
    rw [reduceLoop]; simp only [if_pos h, if_neg hge]
    exact ih hc (by omega)
  | case3 c r h =>
    intro hc hr
    rw [reduceLoop]; simp only [if_neg h]
    exact ⟨hc, hr⟩

lemma reduceLoop_path (m : Nat) :
    ∀ c r, ∃ n, reduceLoop m c r = reduceStep^[n] (c, r) ∧
      ∀ k < n, m < (reduceStep^[k] (c, r)).1 * (reduceStep^[k] (c, r)).2 := by
  intro c r
  induction c, r using reduceLoop.induct m with
  | case1 c r h hge ih =>
    obtain ⟨n, hn, hint⟩ := ih
    have hstep : reduceStep (c, r) = (c - 1, r) := by simp [reduceStep, hge]
    refine ⟨n + 1, ?_, ?_⟩
    · rw [reduceLoop]; simp only [if_pos h, if_pos hge]
      rw [hn, Function.iterate_succ_apply, hstep]
    · intro k hk
      cases k with
      | zero => simpa using h
      | succ j =>
        rw [Function.iterate_succ_apply, hstep]
        exact hint j (by omega)
  | case2 c r h hge ih =>
    obtain ⟨n, hn, hint⟩ := ih
    have hstep : reduceStep (c, r) = (c, r - 1) := by simp [reduceStep, hge]
    refine ⟨n + 1, ?_, ?_⟩
    · rw [reduceLoop]; simp only [if_pos h, if_neg hge]
      rw [hn, Function.iterate_succ_apply, hstep]
    · intro k hk
      cases k with
      | zero => simpa using h
      | succ j =>
        rw [Function.iterate_succ_apply, hstep]
        exact hint j (by omega)
  | case3 c r h =>
    refine ⟨0, ?_, ?_⟩
    · rw [reduceLoop]; simp only [if_neg h]; rfl
    · intro k hk; exact absurd hk (Nat.not_lt_zero k)

/-- Claim C3: for desired dimensions and budget all at least 1, the resolver's
result has product within `maxCells`, and when the desired product already
fits the desired shape is returned unchanged. -/
theorem reduceDimensions_budget_and_noop (c r m : Nat)
    (hc : 1 ≤ c) (hr : 1 ≤ r) (hm : 1 ≤ m) :
    (reduceDimensions c r m).1 * (reduceDimensions c r m).2 ≤ m ∧
      (c * r ≤ m → reduceDimensions c r m = (c, r)) := by
  refine ⟨reduceLoop_product_le m c r, fun hfit => ?_⟩
  rw [reduceDimensions, reduceLoop]
  simp only [if_neg (Nat.not_lt.mpr hfit)]

theorem reduceDimensions_budget_and_noop_witness :
    (1 ≤ 3 ∧ 1 ≤ 7 ∧ 1 ≤ 21) ∧
      ((reduceDimensions 3 7 21).1 * (reduceDimensions 3 7 21).2 ≤ 21 ∧
        (3 * 7 ≤ 21 → reduceDimensions 3 7 21 = (3, 7))) :=
  ⟨by omega, reduceDimensions_budget_and_noop 3 7 21 (by omega) (by omega) (by omega)⟩

/-- Claim C4, counterexample to global minimality: from desired 4×2 with
`maxCells = 3` the resolver reaches (1,2) using 3 unit decrements, while the
shape (3,1) is reachable with only 2 unit decrements and also fits. -/
theorem reduceDimensions_not_globally_minimal :
    reduceDimensions 4 2 3 = (1, 2) ∧
      3 ≤ 4 ∧ 1 ≤ 2 ∧ 3 * 1 ≤ 3 ∧ (4 - 3) + (2 - 1) < (4 - 1) + (2 - 2) := by
  constructor
  · rw [reduceDimensions, reduceLoop]; norm_num
    rw [reduceLoop]; norm_num
    rw [reduceLoop]; norm_num
    rw [reduceLoop]; norm_num
  · omega

/-- Claim C4 (amended): the result is reached from the desired shape by unit
decrements, and the decrement count is minimal along the algorithm's own
decrement sequence: every proper prefix of the iterated greedy step still has
product above `maxCells`.  (Minimality over all unit-decrement sequences is
false; see the counterexample.) -/
theorem reduceDimensions_path_minimal (c r m : Nat)
    (hc : 1 ≤ c) (hr : 1 ≤ r) (hm : 1 ≤ m) :
    (reduceDimensions c r m).1 ≤ c ∧ (reduceDimensions c r m).2 ≤ r ∧
      ∃ n, reduceDimensions c r m = reduceStep^[n] (c, r) ∧
        ∀ k < n, m < (reduceStep^[k] (c, r)).1 * (reduceStep^[k] (c, r)).2 :=
  ⟨(reduceLoop_fst_le m c r).1, (reduceLoop_fst_le m c r).2, reduceLoop_path m c r⟩

theorem reduceDimensions_path_minimal_witness :
    (1 ≤ 4 ∧ 1 ≤ 2 ∧ 1 ≤ 3) ∧
      ((reduceDimensions 4 2 3).1 ≤ 4 ∧ (reduceDimensions 4 2 3).2 ≤ 2 ∧
        ∃ n, reduceDimensions 4 2 3 = reduceStep^[n] (4, 2) ∧
          ∀ k < n, 3 < (reduceStep^[k] (4, 2)).1 * (reduceStep^[k] (4, 2)).2) :=
  ⟨by omega, reduceDimensions_path_minimal 4 2 3 (by omega) (by omega) (by omega)⟩

/-- Claim C9: for inputs all at least 1, the reduction loop terminates after
finitely many iterations: the resolver's value is a finite iterate of the
single loop step, and that iterate satisfies the budget. -/
theorem reduceDimensions_loop_terminates (c r m : Nat)
    (hc : 1 ≤ c) (hr : 1 ≤ r) (hm : 1 ≤ m) :
    ∃ n, reduceDimensions c r m = reduceStep^[n] (c, r) ∧
      (reduceStep^[n] (c, r)).1 * (reduceStep^[n] (c, r)).2 ≤ m := by
  obtain ⟨n, hn, _⟩ := reduceLoop_path m c r
  exact ⟨n, hn, hn ▸ reduceLoop_product_le m c r⟩

theorem reduceDimensions_loop_terminates_witness :
    (1 ≤ 4 ∧ 1 ≤ 6 ∧ 1 ≤ 21) ∧
      ∃ n, reduceDimensions 4 6 21 = reduceStep^[n] (4, 6) ∧
        (reduceStep^[n] (4, 6)).1 * (reduceStep^[n] (4, 6)).2 ≤ 21 :=
  ⟨by omega, reduceDimensions_loop_terminates 4 6 21 (by omega) (by omega) (by omega)⟩

/-- Claim C10: for inputs all at least 1, the resolver preserves the GridShape
invariant: both returned dimensions are at least 1, hence so is their
product. -/
theorem reduceDimensions_preserves_shape (c r m : Nat)
    (hc : 1 ≤ c) (hr : 1 ≤ r) (hm : 1 ≤ m) :
    1 ≤ (reduceDimensions c r m).1 ∧ 1 ≤ (reduceDimensions c r m).2 ∧
      1 ≤ (reduceDimensions c r m).1 * (reduceDimensions c r m).2 := by
  obtain ⟨h1, h2⟩ := reduceLoop_pos m hm c r hc hr
  exact ⟨h1, h2, Nat.mul_pos h1 h2⟩

theorem reduceDimensions_preserves_shape_witness :
    (1 ≤ 5 ∧ 1 ≤ 5 ∧ 1 ≤ 7) ∧
      (1 ≤ (reduceDimensions 5 5 7).1 ∧ 1 ≤ (reduceDimensions 5 5 7).2 ∧
        1 ≤ (reduceDimensions 5 5 7).1 * (reduceDimensions 5 5 7).2) :=
  ⟨by omega, reduceDimensions_preserves_shape 5 5 7 (by omega) (by omega) (by omega)⟩

/-- Claim C7: at the failing input `maxCells = 0` the resolver does not fail
with an `InvalidBudget` error: it silently returns the degenerate shape 0×1. -/
theorem reduceDimensions_zero_budget_degenerate :
    reduceDimensions 1 1 0 = (0, 1) := by
  rw [reduceDimensions, reduceLoop]; norm_num
  rw [reduceLoop]; norm_num

/-! ### List helper lemmas -/

lemma getD_set_ne {α : Type} (l : List α) (d : α) {i j : Nat} (x : α) (h : i ≠ j) :
    (l.set i x).getD j d = l.getD j d := by
  simp [List.getD_eq_getElem?_getD, List.getElem?_set, h]

lemma getD_set_self {α : Type} (l : List α) (d : α) {i : Nat} (x : α) (h : i < l.length) :
    (l.set i x).getD i d = x := by
  simp [List.getD_eq_getElem?_getD, List.getElem?_set, h]

lemma getD_mem {α : Type} (l : List α) (d : α) {i : Nat} (h : i < l.length) :
    l.getD i d ∈ l := by
  rw [List.getD_eq_getElem l d h]
  exact List.getElem_mem h

lemma cons_decomp {α : Type} (l : List α) (d : α) {i : Nat} (h : i < l.length) :
    l = l.take i ++ l.getD i d :: l.drop (i + 1) := by
  rw [List.getD_eq_getElem l d h]
  conv_lhs => rw [← List.take_append_drop i l, List.drop_eq_getElem_cons h]

lemma count_set (l : List String) (d : String) {i : Nat} (x y : String)
    (h : i < l.length) :
    (l.set i x).count y + (if l.getD i d = y then 1 else 0)
      = l.count y + (if x = y then 1 else 0) := by
  have hset : l.set i x = l.take i ++ x :: l.drop (i + 1) :=
    List.set_eq_take_cons_drop x h
  have hcl : l.count y = (l.take i).count y
      + ((if l.getD i d = y then 1 else 0) + (l.drop (i + 1)).count y) := by
    conv_lhs => rw [cons_decomp l d h]
    simp [List.count_append, List.count_cons, beq_iff_eq]
    split_ifs <;> omega
  rw [hset, List.count_append, List.count_cons, hcl]
  simp only [beq_iff_eq]
  split_ifs <;> omega

lemma length_filter_set {α : Type} (l : List α) (d : α) {i : Nat} (x : α)
    (p : α → Bool) (h : i < l.length) :
    ((l.set i x).filter p).length + (if p (l.getD i d) then 1 else 0)
      = (l.filter p).length + (if p x then 1 else 0) := by
  have hset : l.set i x = l.take i ++ x :: l.drop (i + 1) :=
    List.set_eq_take_cons_drop x h
  have hcl : (l.filter p).length = ((l.take i).filter p).length
      + ((if p (l.getD i d) then 1 else 0) + ((l.drop (i + 1)).filter p).length) := by
    conv_lhs => rw [cons_decomp l d h]
    simp [List.filter_append, List.filter_cons]
    split_ifs <;> simp <;> omega
  rw [hset, List.filter_append, List.filter_cons, hcl]
  split_ifs <;> simp <;> omega

lemma listSwap_perm (l : List String) {i j : Nat} (hi : i < l.length)
    (hj : j < l.length) : (listSwap l i j).Perm l := by
  rw [List.perm_iff_count]
  intro y
  have hlen : (l.set i (l.getD j default)).length = l.length := List.length_set ..
  by_cases hij : i = j
  · subst hij
    have h1 := count_set l (default : String) (l.getD i default) y hi
    have h2 := count_set (l.set i (l.getD i default)) (default : String)
      (l.getD i default) y (by rwa [hlen])
    rw [getD_set_self l (default : String) _ hi] at h2
    unfold listSwap
    split_ifs at h1 h2 <;> omega
  · have h1 := count_set l (default : String) (l.getD j default) y hi
    have h2 := count_set (l.set i (l.getD j default)) (default : String)
      (l.getD i default) y (by rwa [hlen])
    rw [getD_set_ne l (default : String) _ hij] at h2
    unfold listSwap
    split_ifs at h1 h2 <;> omega

lemma shuffleAux_perm (g : Nat → Nat) :
    ∀ (i k : Nat) (a : List String), i < a.length → (shuffleAux g k i a).1.Perm a := by
  intro i
  induction i with
  | zero => intro k a _; simp [shuffleAux]
  | succ n ih =>
    intro k a h
    rw [shuffleAux]
    have hj : g k % (n + 2) < a.length := by
      have := Nat.mod_lt (g k) (y := n + 2) (by omega)
      omega
    have hswap := listSwap_perm a (i := n + 1) (j := g k % (n + 2)) h hj
    have hlen : (listSwap a (n + 1) (g k % (n + 2))).length = a.length :=
      hswap.length_eq
    exact (ih (k + 1) _ (by omega)).trans hswap

lemma shuffle_perm (g : Nat → Nat) (k : Nat) (l : List String) :
    (shuffle g k l).1.Perm l := by
  cases l with
  | nil => simp [shuffle, shuffleAux]
  | cons a t =>
    exact shuffleAux_perm g _ k (a :: t) (by simp)

lemma length_filter_range_getD {α : Type} (l : List α) (d : α) (p : α → Bool) :
    ((List.range l.length).filter (fun i => p (l.getD i d))).length
      = (l.filter p).length := by
  induction l with
  | nil => simp
  | cons a t ih =>
    rw [List.length_cons, List.range_succ_eq_map, List.filter_cons, List.filter_map]
    have hq : ((fun i => p ((a :: t).getD i d)) ∘ Nat.succ)
        = fun i => p (t.getD i d) := by
      funext i
      simp [Function.comp, List.getD_cons_succ]
    rw [hq]
    have ih' : (List.filter (fun i => p (t[i]?.getD d)) (List.range t.length)).length
        = (List.filter p t).length := by
      simpa [List.getD_eq_getElem?_getD] using ih
    by_cases hpa : p a <;>
      simp [hpa, List.getD_cons_zero, List.filter_cons, ih']

lemma mem_macIndices {items : List String} {mac : String} {p : Nat} :
    p ∈ macIndices items mac ↔ p < items.length ∧ items.getD p "" = mac := by
  simp [macIndices, List.mem_filter, List.mem_range]

lemma length_macIndices (items : List String) (mac : String) :
    (macIndices items mac).length = items.count mac := by
  rw [macIndices, length_filter_range_getD items "" (· == mac),
    ← List.countP_eq_length_filter]
  rfl

lemma macIndices_nodup (items : List String) (mac : String) :
    (macIndices items mac).Nodup :=
  (List.nodup_range _).filter _

lemma ALL_SPRITES_nodup : ALL_SPRITES.Nodup := by decide

lemma chooseSprites_spec (t : Nat) (g : Nat → Nat) (h2 : 2 ≤ t) (h21 : t ≤ 21) :
    (chooseSprites t g).1.length = t ∧
      (chooseSprites t g).1.count (chooseSprites t g).2.1 = 2 ∧
      ∀ s : String, s ≠ (chooseSprites t g).2.1 → (chooseSprites t g).1.count s ≤ 1 := by
  have hmax : MAX_CELLS = 21 := rfl
  unfold chooseSprites
  rcases hsh : shuffle g 0 ALL_SPRITES with ⟨sh, k1⟩
  have hperm : sh.Perm ALL_SPRITES := by
    have := shuffle_perm g 0 ALL_SPRITES
    rwa [hsh] at this
  have hlen : sh.length = 20 := hperm.length_eq.trans rfl
  have hnd : sh.Nodup := hperm.nodup_iff.mpr ALL_SPRITES_nodup
  by_cases hge : t ≥ MAX_CELLS
  · simp only [hsh, if_pos hge]
    set mac := sh.getD (g k1 % sh.length) "" with hmacdef
    have hmem : mac ∈ sh := getD_mem sh "" (Nat.mod_lt _ (by omega))
    have hc1 : sh.count mac = 1 :=
      Nat.le_antisymm (List.nodup_iff_count_le_one.mp hnd mac)
        (List.count_pos_iff.mpr hmem)
    refine ⟨?_, ?_, ?_⟩
    · have hl : (sh ++ [mac]).length = 21 := by simp [hlen]
      omega
    · simp only [List.count_append, hc1, List.count_singleton]
      simp
    · intro s hs
      simp only [List.count_append]
      have : [mac].count s = 0 := by
        simp [List.count_singleton, hs]
      rw [this]
      simpa using List.nodup_iff_count_le_one.mp hnd s
  · simp only [hsh, if_neg hge]
    have hlt : t < 21 := by omega
    set chosen := sh.take (t - 1) with hchosendef
    have hclen : chosen.length = t - 1 := by
      simp [hchosendef, List.length_take, hlen]
      omega
    have hcnd : chosen.Nodup := List.Nodup.sublist (List.take_sublist _ _) hnd
    set mac := chosen.getD (g k1 % chosen.length) "" with hmacdef
    have hmem : mac ∈ chosen := getD_mem chosen "" (Nat.mod_lt _ (by omega))
    have hc1 : chosen.count mac = 1 :=
      Nat.le_antisymm (List.nodup_iff_count_le_one.mp hcnd mac)
        (List.count_pos_iff.mpr hmem)
    refine ⟨?_, ?_, ?_⟩
    · have hl : (chosen ++ [mac]).length = t - 1 + 1 := by simp [hclen]
      omega
    · simp only [List.count_append, hc1, List.count_singleton]
      simp
    · intro s hs
      simp only [List.count_append]
      have : [mac].count s = 0 := by
        simp [List.count_singleton, hs]
      rw [this]
      simpa using List.nodup_iff_count_le_one.mp hcnd s

lemma fixAdjacency_perm (cols : Nat) (g : Nat → Nat) (k : Nat)
    (items : List String) (mac : String) :
    (fixAdjacency cols g k items mac).Perm items := by
  unfold fixAdjacency
  by_cases hadj : areAdjacent ((macIndices items mac).getD 0 0)
      ((macIndices items mac).getD 1 0) cols
  · simp only [if_pos hadj]
    set mi0 := (macIndices items mac).getD 0 0 with hmi0
    set mi1 := (macIndices items mac).getD 1 0 with hmi1
    set valid := (List.range items.length).filter
      (fun i => i != mi0 && i != mi1 && !areAdjacent mi0 i cols) with hvalid
    by_cases hv : 0 < valid.length
    · simp only [if_pos hv]
      have hsw : valid.getD (g k % valid.length) 0 ∈ valid :=
        getD_mem valid 0 (Nat.mod_lt _ hv)
      have hswlt : valid.getD (g k % valid.length) 0 < items.length :=
        List.mem_range.mp (List.mem_filter.mp hsw).1
      have hmi1lt : mi1 < items.length := by
        by_cases h2 : 2 ≤ (macIndices items mac).length
        · have hm : mi1 ∈ macIndices items mac :=
            getD_mem (macIndices items mac) 0 (by omega)
          exact (mem_macIndices.mp hm).1
        · have h0 : mi1 = 0 := List.getD_eq_default _ _ (by omega)
          omega
      exact listSwap_perm items hmi1lt hswlt
    · simp only [if_neg hv]
      exact List.Perm.refl items
  · simp only [if_neg hadj]
    exact List.Perm.refl items

/-- Claim C1: for any grid whose cell count is between 2 and 21 and any random
stream, `generateLevel` returns an items list of length exactly
`cols * rows` in which the macguffin appears exactly twice and every other
sprite that appears does so exactly once. -/
theorem generateLevel_exactly_one_duplicate (cols rows : Nat) (g : Nat → Nat)
    (h2 : 2 ≤ cols * rows) (h21 : cols * rows ≤ 21) :
    (generateLevel cols rows g).1.length = cols * rows ∧
      (generateLevel cols rows g).1.count (generateLevel cols rows g).2 = 2 ∧
      ∀ s : String, s ≠ (generateLevel cols rows g).2 →
        s ∈ (generateLevel cols rows g).1 →
        (generateLevel cols rows g).1.count s = 1 := by
  obtain ⟨hlen, hcnt, hothers⟩ := chooseSprites_spec (cols * rows) g h2 h21
  rcases hcs : chooseSprites (cols * rows) g with ⟨chosen, mac, k⟩
  simp only [hcs] at hlen hcnt hothers
  rcases hsh : shuffle g k chosen with ⟨items, k2⟩
  have hpermsh : items.Perm chosen := by
    have := shuffle_perm g k chosen
    rwa [hsh] at this
  have hgen : generateLevel cols rows g = (fixAdjacency cols g k2 items mac, mac) := by
    simp only [generateLevel, hcs, hsh]
  rw [hgen]
  have hperm : (fixAdjacency cols g k2 items mac).Perm chosen :=
    (fixAdjacency_perm cols g k2 items mac).trans hpermsh
  refine ⟨?_, ?_, ?_⟩
  · rw [hperm.length_eq]
    exact hlen
  · rw [hperm.count_eq]
    exact hcnt
  · intro s hs hmem
    have h1 := hothers s hs
    have hpos : 0 < (fixAdjacency cols g k2 items mac).count s :=
      List.count_pos_iff.mpr hmem
    rw [hperm.count_eq] at hpos ⊢
    omega

theorem generateLevel_exactly_one_duplicate_witness :
    (2 ≤ 3 * 7 ∧ 3 * 7 ≤ 21) ∧
      ((generateLevel 3 7 (fun _ => 0)).1.length = 3 * 7 ∧
        (generateLevel 3 7 (fun _ => 0)).1.count (generateLevel 3 7 (fun _ => 0)).2 = 2 ∧
        ∀ s : String, s ≠ (generateLevel 3 7 (fun _ => 0)).2 →
          s ∈ (generateLevel 3 7 (fun _ => 0)).1 →
          (generateLevel 3 7 (fun _ => 0)).1.count s = 1) :=
  ⟨by omega, generateLevel_exactly_one_duplicate 3 7 (fun _ => 0) (by omega) (by omega)⟩

lemma areAdjacent_comm (p q c : Nat) : areAdjacent p q c = areAdjacent q p c := by
  unfold areAdjacent
  have h1 : ((↑(p / c) : Int) - ↑(q / c)).natAbs = ((↑(q / c) : Int) - ↑(p / c)).natAbs := by
    omega
  have h2 : ((↑(p % c) : Int) - ↑(q % c)).natAbs = ((↑(q % c) : Int) - ↑(p % c)).natAbs := by
    omega
  simp only [h1, h2]

lemma macIndices_two (items : List String) (mac : String) (h : items.count mac = 2) :
    ∃ a b, macIndices items mac = [a, b] ∧ a ≠ b ∧
      a < items.length ∧ b < items.length ∧
      items.getD a "" = mac ∧ items.getD b "" = mac := by
  have hl : (macIndices items mac).length = 2 := (length_macIndices items mac).trans h
  rcases hmis : macIndices items mac with _ | ⟨a, _ | ⟨b, _ | ⟨c, t⟩⟩⟩ <;>
    rw [hmis] at hl <;> try simp at hl
  have hnd : ([a, b] : List Nat).Nodup := hmis ▸ macIndices_nodup items mac
  have hane : a ≠ b := by simp at hnd; exact hnd
  have hma : a ∈ macIndices items mac := by rw [hmis]; simp
  have hmb : b ∈ macIndices items mac := by rw [hmis]; simp
  obtain ⟨ha1, ha2⟩ := mem_macIndices.mp hma
  obtain ⟨hb1, hb2⟩ := mem_macIndices.mp hmb
  exact ⟨a, b, rfl, hane, ha1, hb1, ha2, hb2⟩

lemma fixAdjacency_separates (cols : Nat) (g : Nat → Nat) (k : Nat)
    (items : List String) (mac : String) (hcount : items.count mac = 2) :
    areAdjacent ((macIndices (fixAdjacency cols g k items mac) mac).getD 0 0)
        ((macIndices (fixAdjacency cols g k items mac) mac).getD 1 0) cols = false ∨
      ∀ p, p < (fixAdjacency cols g k items mac).length →
        p ≠ (macIndices (fixAdjacency cols g k items mac) mac).getD 0 0 →
        p ≠ (macIndices (fixAdjacency cols g k items mac) mac).getD 1 0 →
        areAdjacent ((macIndices (fixAdjacency cols g k items mac) mac).getD 0 0) p cols
          = true := by
  obtain ⟨a, b, hmis, hab, ha, hb, hga, hgb⟩ := macIndices_two items mac hcount
  have hmi0 : (macIndices items mac).getD 0 0 = a := by rw [hmis]; rfl
  have hmi1 : (macIndices items mac).getD 1 0 = b := by rw [hmis]; rfl
  by_cases hadj : areAdjacent a b cols = true
  case neg =>
    have hadjf : areAdjacent a b cols = false := by
      cases h : areAdjacent a b cols
      · rfl
      · exact absurd h hadj
    have hfix : fixAdjacency cols g k items mac = items := by
      simp only [fixAdjacency, hmi0, hmi1, hadjf, Bool.false_eq_true, if_false]
    left
    rw [hfix, hmi0, hmi1, hadjf]
  case pos =>
    set valid := (List.range items.length).filter
      (fun i => i != a && i != b && !areAdjacent a i cols) with hvalid
    by_cases hv : 0 < valid.length
    case neg =>
      have hfix : fixAdjacency cols g k items mac = items := by
        simp only [fixAdjacency, hmi0, hmi1, if_pos hadj, ← hvalid, if_neg hv]
      right
      intro p hp hp0 hp1
      rw [hfix] at hp hp0 hp1 ⊢
      rw [hmi0] at hp0 ⊢
      rw [hmi1] at hp1
      have hempty : (List.range items.length).filter
          (fun i => i != a && i != b && !areAdjacent a i cols) = [] := by
        rw [← hvalid]
        exact List.length_eq_zero.mp (by omega)
      have hall := List.filter_eq_nil_iff.mp hempty
      have hpr : p ∈ List.range items.length := List.mem_range.mpr hp
      have hnp := hall p hpr
      by_contra hc
      have hcf : areAdjacent a p cols = false := by
        cases h : areAdjacent a p cols
        · rfl
        · exact absurd h hc
      apply hnp
      simp [hp0, hp1, hcf]
    case pos =>
      set s := valid.getD (g k % valid.length) 0 with hsdef
      have hsmem : s ∈ valid := getD_mem valid 0 (Nat.mod_lt _ hv)
      have hsfilter : s ∈ (List.range items.length).filter
          (fun i => i != a && i != b && !areAdjacent a i cols) := by
        rw [← hvalid]
        exact hsmem
      obtain ⟨hsr, hsp⟩ := List.mem_filter.mp hsfilter
      have hslt : s < items.length := List.mem_range.mp hsr
      have hsdecode : (s ≠ a ∧ s ≠ b) ∧ areAdjacent a s cols = false := by
        simpa using hsp
      obtain ⟨⟨hsa, hsb⟩, hsadj⟩ := hsdecode
      have hfix : fixAdjacency cols g k items mac = listSwap items b s := by
        simp only [fixAdjacency, hmi0, hmi1, if_pos hadj, ← hvalid, if_pos hv, ← hsdef]
      have hdef : (default : String) = "" := rfl
      have hlen2 : (listSwap items b s).length = items.length := by
        simp [listSwap, List.length_set]
      have hcnt2 : (listSwap items b s).count mac = 2 := by
        rw [(listSwap_perm items hb hslt).count_eq]
        exact hcount
      obtain ⟨u, v, hmis2, huv, hu, hv2, hgu, hgv⟩ := macIndices_two _ mac hcnt2
      have hgetb : (listSwap items b s).getD b "" = items.getD s "" := by
        unfold listSwap
        rw [getD_set_ne _ _ _ (show s ≠ b from hsb)]
        rw [getD_set_self _ _ _ hb]
        rw [hdef]
      have hsnotmac : items.getD s "" ≠ mac := by
        intro heq
        have hmem : s ∈ macIndices items mac := mem_macIndices.mpr ⟨hslt, heq⟩
        rw [hmis] at hmem
        simp at hmem
        rcases hmem with h | h
        · exact hsa h
        · exact hsb h
      have hchar : ∀ p, p < items.length → (listSwap items b s).getD p "" = mac →
          p = a ∨ p = s := by
        intro p hp hpm
        by_cases hps : p = s
        · right; exact hps
        by_cases hpb : p = b
        · rw [hpb, hgetb] at hpm
          exact absurd hpm hsnotmac
        by_cases hpa : p = a
        · left; exact hpa
        have heqp : (listSwap items b s).getD p "" = items.getD p "" := by
          unfold listSwap
          rw [getD_set_ne _ _ _ (show s ≠ p from fun h => hps h.symm)]
          rw [getD_set_ne _ _ _ (show b ≠ p from fun h => hpb h.symm)]
        rw [heqp] at hpm
        have hmem : p ∈ macIndices items mac := mem_macIndices.mpr ⟨hp, hpm⟩
        rw [hmis] at hmem
        simp at hmem
        rcases hmem with h | h
        · exact absurd h hpa
        · exact absurd h hpb
      have hu' : u = a ∨ u = s := hchar u (by rw [← hlen2]; exact hu) hgu
      have hv' : v = a ∨ v = s := hchar v (by rw [← hlen2]; exact hv2) hgv
      left
      rw [hfix, hmis2]
      have hg0 : ([u, v] : List Nat).getD 0 0 = u := rfl
      have hg1 : ([u, v] : List Nat).getD 1 0 = v := rfl
      rw [hg0, hg1]
      rcases hu' with h1 | h1 <;> rcases hv' with h2 | h2
      · exact absurd (h1.trans h2.symm) huv
      · rw [h1, h2]; exact hsadj
      · rw [h1, h2, areAdjacent_comm]; exact hsadj
      · exact absurd (h1.trans h2.symm) huv

/-- Claim C2, counterexample: on the 2×2 grid (columns = rows = 2, so 4 > 3
total cells) the two positions holding the duplicated sprite are still
8-directionally adjacent after the adjacency-fix step returns — every cell of
a 2×2 grid is adjacent to every other, so no valid swap position exists and
the fallback fires on a grid with more than 3 cells. -/
theorem generateLevel_2x2_adjacent_fallback :
    (2 ≤ 2 ∧ 2 ≤ 2 ∧ 3 < 2 * 2) ∧
      areAdjacent ((macIndices (generateLevel 2 2 (fun _ => 0)).1
          (generateLevel 2 2 (fun _ => 0)).2).getD 0 0)
        ((macIndices (generateLevel 2 2 (fun _ => 0)).1
          (generateLevel 2 2 (fun _ => 0)).2).getD 1 0) 2 = true :=
  ⟨by omega, by decide⟩

/-- Claim C2 (amended): on any grid with columns ≥ 2, rows ≥ 2 and at most 21
cells, after the adjacency-fix step either the two positions holding the
duplicated sprite are not 8-directionally adjacent, or no separating position
existed at all: every cell other than the two duplicate positions is adjacent
to the first duplicate position (the fallback case, which can occur on grids
with more than 3 cells, e.g. 2×2). -/
theorem generateLevel_separation (cols rows : Nat) (g : Nat → Nat)
    (hc : 2 ≤ cols) (hr : 2 ≤ rows) (h21 : cols * rows ≤ 21) :
    areAdjacent ((macIndices (generateLevel cols rows g).1
        (generateLevel cols rows g).2).getD 0 0)
      ((macIndices (generateLevel cols rows g).1
        (generateLevel cols rows g).2).getD 1 0) cols = false ∨
    ∀ p, p < (generateLevel cols rows g).1.length →
      p ≠ (macIndices (generateLevel cols rows g).1
        (generateLevel cols rows g).2).getD 0 0 →
      p ≠ (macIndices (generateLevel cols rows g).1
        (generateLevel cols rows g).2).getD 1 0 →
      areAdjacent ((macIndices (generateLevel cols rows g).1
        (generateLevel cols rows g).2).getD 0 0) p cols = true := by
  have h2 : 2 ≤ cols * rows := by
    have hmul : cols * 1 ≤ cols * rows := Nat.mul_le_mul_left cols (by omega)
    omega
  obtain ⟨_, hcnt, _⟩ := chooseSprites_spec (cols * rows) g h2 h21
  rcases hcs : chooseSprites (cols * rows) g with ⟨chosen, mac, k⟩
  simp only [hcs] at hcnt
  rcases hsh : shuffle g k chosen with ⟨items, k2⟩
  have hpermsh : items.Perm chosen := by
    have := shuffle_perm g k chosen
    rwa [hsh] at this
  have hgen : generateLevel cols rows g = (fixAdjacency cols g k2 items mac, mac) := by
    simp only [generateLevel, hcs, hsh]
  rw [hgen]
  exact fixAdjacency_separates cols g k2 items mac (by rw [hpermsh.count_eq]; exact hcnt)

theorem generateLevel_separation_witness :
    (2 ≤ 3 ∧ 2 ≤ 7 ∧ 3 * 7 ≤ 21) ∧
      (areAdjacent ((macIndices (generateLevel 3 7 (fun _ => 1)).1
          (generateLevel 3 7 (fun _ => 1)).2).getD 0 0)
        ((macIndices (generateLevel 3 7 (fun _ => 1)).1
          (generateLevel 3 7 (fun _ => 1)).2).getD 1 0) 3 = false ∨
      ∀ p, p < (generateLevel 3 7 (fun _ => 1)).1.length →
        p ≠ (macIndices (generateLevel 3 7 (fun _ => 1)).1
          (generateLevel 3 7 (fun _ => 1)).2).getD 0 0 →
        p ≠ (macIndices (generateLevel 3 7 (fun _ => 1)).1
          (generateLevel 3 7 (fun _ => 1)).2).getD 1 0 →
        areAdjacent ((macIndices (generateLevel 3 7 (fun _ => 1)).1
          (generateLevel 3 7 (fun _ => 1)).2).getD 0 0) p 3 = true) :=
  ⟨by omega, generateLevel_separation 3 7 (fun _ => 1) (by omega) (by omega) (by omega)⟩

lemma fillWithRandom_length (g : Nat → Nat) :
    ∀ (n k : Nat) (src : List String), (fillWithRandom g k n src).length = n := by
  intro n
  induction n with
  | zero => intro k src; rfl
  | succ m ih => intro k src; simp [fillWithRandom, ih]

lemma fillWithRandom_filler_count (g : Nat → Nat) :
    ∀ (n k : Nat), (fillWithRandom g k n FILLER_SPRITES).count TARGET = 0 := by
  intro n
  induction n with
  | zero => intro k; rfl
  | succ m ih =>
    intro k
    have hmem : FILLER_SPRITES.getD (g k % FILLER_SPRITES.length) "" ∈ FILLER_SPRITES :=
      getD_mem _ _ (Nat.mod_lt _ (by norm_num [FILLER_SPRITES]))
    have hne : ∀ x ∈ FILLER_SPRITES, x ≠ TARGET := by decide
    rw [show fillWithRandom g k (m + 1) FILLER_SPRITES
        = FILLER_SPRITES.getD (g k % FILLER_SPRITES.length) "" ::
          fillWithRandom g (k + 1) m FILLER_SPRITES from rfl]
    rw [List.count_cons]
    have h0 : (FILLER_SPRITES.getD (g k % FILLER_SPRITES.length) "" == TARGET) = false := by
      rw [beq_eq_false_iff_ne]
      exact hne _ hmem
    rw [h0]
    simp [ih]

lemma addExtra_bounds (g : Nat → Nat) (target : String) :
    ∀ (n k : Nat) (items : List String),
      items.count target ≤ (addExtraTargetsByChance g k items target n).count target ∧
        (addExtraTargetsByChance g k items target n).count target
          ≤ items.count target + n := by
  intro n
  induction n with
  | zero => intro k items; exact ⟨Nat.le_refl _, by simp [addExtraTargetsByChance]⟩
  | succ m ih =>
    intro k items
    by_cases hcoin : g k % 2 = 0
    · set nts := (List.range items.length).filter
        (fun i => !(items.getD i "" == target)) with hnts
      by_cases hne : 0 < nts.length
      · have hstep : addExtraTargetsByChance g k items target (m + 1)
            = addExtraTargetsByChance g (k + 2)
                (items.set (nts.getD (g (k + 1) % nts.length) 0) target) target m := by
          simp only [addExtraTargetsByChance, if_pos hcoin, ← hnts, if_pos hne]
        set idx := nts.getD (g (k + 1) % nts.length) 0 with hidx
        have hidxmem : idx ∈ nts := getD_mem nts 0 (Nat.mod_lt _ hne)
        have hidxfilter : idx ∈ (List.range items.length).filter
            (fun i => !(items.getD i "" == target)) := by
          rw [← hnts]
          exact hidxmem
        obtain ⟨hidxr, hidxp⟩ := List.mem_filter.mp hidxfilter
        have hidxlt : idx < items.length := List.mem_range.mp hidxr
        have hidxne : items.getD idx "" ≠ target := by simpa using hidxp
        have hcnt : (items.set idx target).count target = items.count target + 1 := by
          have hcs := count_set items "" target target hidxlt
          rw [if_neg hidxne, if_pos rfl] at hcs
          omega
        rw [hstep]
        obtain ⟨hlo, hhi⟩ := ih (k + 2) (items.set idx target)
        rw [hcnt] at hlo hhi
        exact ⟨by omega, by omega⟩
      · have hstep : addExtraTargetsByChance g k items target (m + 1)
            = addExtraTargetsByChance g (k + 1) items target m := by
          simp only [addExtraTargetsByChance, if_pos hcoin, ← hnts, if_neg hne]
        rw [hstep]
        obtain ⟨hlo, hhi⟩ := ih (k + 1) items
        exact ⟨hlo, by omega⟩
    · have hstep : addExtraTargetsByChance g k items target (m + 1)
          = addExtraTargetsByChance g (k + 1) items target m := by
        simp only [addExtraTargetsByChance, if_neg hcoin]
      rw [hstep]
      obtain ⟨hlo, hhi⟩ := ih (k + 1) items
      exact ⟨hlo, by omega⟩

/-- Claim C8: on the 24-cell Peach Party grid (4×6, the desired dimensions,
which the budget of 24 leaves unreduced), for every random stream the number
of target (peach) entries in the generated items list is between 1 and 4. -/
theorem peachParty_target_count (g : Nat → Nat) :
    1 ≤ (generateLevelForTheModeCalledPeachParty 4 6 g).count TARGET ∧
      (generateLevelForTheModeCalledPeachParty 4 6 g).count TARGET ≤ 4 := by
  set items := fillWithRandom g 0 (4 * 6) FILLER_SPRITES with hitems
  have hlen : items.length = 24 := by
    rw [hitems, fillWithRandom_length]
  have hfc : items.count TARGET = 0 := by
    rw [hitems]
    exact fillWithRandom_filler_count g _ _
  have hnm : TARGET ∉ items := List.count_eq_zero.mp hfc
  have hany : items.any (· == TARGET) = false := by
    rw [Bool.eq_false_iff]
    intro hc
    rw [List.any_eq_true] at hc
    obtain ⟨x, hx, hxe⟩ := hc
    rw [beq_iff_eq] at hxe
    rw [hxe] at hx
    exact hnm hx
  have hens : ensureTargetPresent g (4 * 6) items TARGET
      = (items.set (g (4 * 6) % items.length) TARGET, 4 * 6 + 1) := by
    simp [ensureTargetPresent, hany]
  have hidxlt : g (4 * 6) % items.length < items.length :=
    Nat.mod_lt _ (by omega)
  have hgetne : items.getD (g (4 * 6) % items.length) "" ≠ TARGET := by
    intro heq
    apply hnm
    rw [← heq]
    exact getD_mem items "" hidxlt
  have hcnt1 : (items.set (g (4 * 6) % items.length) TARGET).count TARGET = 1 := by
    have hcs := count_set items "" TARGET TARGET hidxlt
    rw [if_neg hgetne, if_pos rfl] at hcs
    omega
  have hmain : generateLevelForTheModeCalledPeachParty 4 6 g
      = addExtraTargetsByChance g (4 * 6 + 1)
          (items.set (g (4 * 6) % items.length) TARGET) TARGET 3 := by
    simp only [generateLevelForTheModeCalledPeachParty, ← hitems, hens]
  rw [hmain]
  obtain ⟨hlo, hhi⟩ := addExtra_bounds g TARGET 3 (4 * 6 + 1)
    (items.set (g (4 * 6) % items.length) TARGET)
  rw [hcnt1] at hlo hhi
  exact ⟨hlo, by omega⟩

lemma set_getD_self {α : Type} (l : List α) (d : α) {i : Nat} (h : i < l.length) :
    l.set i (l.getD i d) = l := by
  rw [List.set_eq_take_cons_drop _ h, ← cons_decomp l d h]

/-- Claim C6, counterexample: an activation of an already-cleared cell whose
sprite is in the target set is not rejected by `checkWinClickToRemove`: on a
one-cell grid holding an already-removed peach, activating it with target
"peach" yields `acceptComplete`, not `reject`. -/
theorem checkWin_cleared_target_reaccepted :
    checkWinClickToRemove [⟨"peach", true⟩] 0 ["peach"]
        = (Outcome.acceptComplete, [⟨"peach", true⟩]) ∧
      Outcome.acceptComplete ≠ Outcome.reject := by
  exact ⟨by decide, by decide⟩

/-- Claim C6 (amended): for an activation whose cell is already cleared, the
evaluator causes no state change, and it returns `Reject` exactly when the
cell's sprite is not in the target set; when the sprite is in the target set
the evaluator re-accepts the cleared cell instead of rejecting it (in the
running game the input layer, not the evaluator, keeps cleared cells from
being activated). -/
theorem checkWin_cleared_amended (grid : List Cell) (targets : List String)
    (i : Nat) (hi : i < grid.length)
    (hcl : (grid.getD i cellDefault).removed = true) :
    (checkWinClickToRemove grid i targets).2 = grid ∧
      (targets.contains (grid.getD i cellDefault).sprite = false →
        (checkWinClickToRemove grid i targets).1 = Outcome.reject) ∧
      (targets.contains (grid.getD i cellDefault).sprite = true →
        (checkWinClickToRemove grid i targets).1 ≠ Outcome.reject) := by
  have hc : (⟨(grid.getD i cellDefault).sprite, true⟩ : Cell) = grid.getD i cellDefault := by
    cases hg : grid.getD i cellDefault with
    | mk sp rm =>
      rw [hg] at hcl
      simp at hcl
      rw [hcl]
  have hset : grid.set i ⟨(grid.getD i cellDefault).sprite, true⟩ = grid := by
    rw [hc]
    exact set_getD_self grid cellDefault hi
  by_cases hcont : targets.contains (grid.getD i cellDefault).sprite = true
  · have hnot : (!targets.contains (grid.getD i cellDefault).sprite) = false := by
      rw [hcont]
      rfl
    have hbody : checkWinClickToRemove grid i targets
        = (if ((grid.set i ⟨(grid.getD i cellDefault).sprite, true⟩).filter
              (livePred targets)).length = 0
           then (Outcome.acceptComplete,
              grid.set i ⟨(grid.getD i cellDefault).sprite, true⟩)
           else (Outcome.acceptContinue,
              grid.set i ⟨(grid.getD i cellDefault).sprite, true⟩)) := by
      simp only [checkWinClickToRemove, hnot, Bool.false_eq_true, if_false]
    refine ⟨?_, ?_, ?_⟩
    · rw [hbody]
      split
      · exact hset
      · exact hset
    · intro hfalse
      rw [hfalse] at hcont
      exact absurd hcont (by decide)
    · intro _
      rw [hbody]
      split
      · exact (by decide : Outcome.acceptComplete ≠ Outcome.reject)
      · exact (by decide : Outcome.acceptContinue ≠ Outcome.reject)
  · have hcf : targets.contains (grid.getD i cellDefault).sprite = false := by
      cases h : targets.contains (grid.getD i cellDefault).sprite
      · rfl
      · exact absurd h hcont
    have hnot : (!targets.contains (grid.getD i cellDefault).sprite) = true := by
      rw [hcf]
      rfl
    have hbody : checkWinClickToRemove grid i targets = (Outcome.reject, grid) := by
      simp only [checkWinClickToRemove]
      rw [if_pos hnot]
    refine ⟨by rw [hbody], fun _ => by rw [hbody], fun htrue => absurd htrue hcont⟩

theorem checkWin_cleared_amended_witness :
    (0 < ([⟨"peach", true⟩] : List Cell).length ∧
        (([⟨"peach", true⟩] : List Cell).getD 0 cellDefault).removed = true) ∧
      ((checkWinClickToRemove [⟨"peach", true⟩] 0 ["apple-red"]).2 = [⟨"peach", true⟩] ∧
        (["apple-red"].contains (([⟨"peach", true⟩] : List Cell).getD 0 cellDefault).sprite
            = false →
          (checkWinClickToRemove [⟨"peach", true⟩] 0 ["apple-red"]).1 = Outcome.reject) ∧
        (["apple-red"].contains (([⟨"peach", true⟩] : List Cell).getD 0 cellDefault).sprite
            = true →
          (checkWinClickToRemove [⟨"peach", true⟩] 0 ["apple-red"]).1 ≠ Outcome.reject)) :=
  ⟨by decide, checkWin_cleared_amended [⟨"peach", true⟩] ["apple-red"] 0
    (by decide) (by decide)⟩

lemma checkWin_body (grid : List Cell) (targets : List String) (p : Nat)
    (htg : targets.contains (grid.getD p cellDefault).sprite = true) :
    checkWinClickToRemove grid p targets
      = (if ((grid.set p ⟨(grid.getD p cellDefault).sprite, true⟩).filter
            (livePred targets)).length = 0
         then (Outcome.acceptComplete, grid.set p ⟨(grid.getD p cellDefault).sprite, true⟩)
         else (Outcome.acceptContinue,
            grid.set p ⟨(grid.getD p cellDefault).sprite, true⟩)) := by
  have hnot : (!targets.contains (grid.getD p cellDefault).sprite) = false := by
    rw [htg]
    rfl
  simp only [checkWinClickToRemove, hnot, Bool.false_eq_true, if_false]

lemma live_length_set (grid : List Cell) (targets : List String) (p : Nat)
    (hp : p < grid.length) (hrm : (grid.getD p cellDefault).removed = false)
    (htg : targets.contains (grid.getD p cellDefault).sprite = true) :
    ((grid.set p ⟨(grid.getD p cellDefault).sprite, true⟩).filter
        (livePred targets)).length + 1
      = (grid.filter (livePred targets)).length := by
  have hlf := length_filter_set grid cellDefault
    (⟨(grid.getD p cellDefault).sprite, true⟩ : Cell) (livePred targets) hp
  have h1 : livePred targets (grid.getD p cellDefault) = true := by
    unfold livePred
    rw [hrm, htg]
    rfl
  have h2 : livePred targets ⟨(grid.getD p cellDefault).sprite, true⟩ = false := rfl
  rw [if_pos h1, if_neg (by rw [h2]; exact (by decide))] at hlf
  omega

lemma live_length_eq_seq (targets : List String) (grid : List Cell) (seq : List Nat)
    (hnd : seq.Nodup)
    (hmem : ∀ p ∈ seq, p < grid.length ∧ (grid.getD p cellDefault).removed = false ∧
      targets.contains (grid.getD p cellDefault).sprite = true)
    (hcov : ∀ p, p < grid.length → (grid.getD p cellDefault).removed = false →
      targets.contains (grid.getD p cellDefault).sprite = true → p ∈ seq) :
    (grid.filter (livePred targets)).length = seq.length := by
  have hpos := length_filter_range_getD grid cellDefault (livePred targets)
  set pos := (List.range grid.length).filter
    (fun i => livePred targets (grid.getD i cellDefault)) with hposdef
  have hpnd : pos.Nodup := (List.nodup_range _).filter _
  have hiff : ∀ q, q ∈ seq ↔ q ∈ pos := by
    intro q
    constructor
    · intro hq
      obtain ⟨h1, h2, h3⟩ := hmem q hq
      rw [hposdef]
      refine List.mem_filter.mpr ⟨List.mem_range.mpr h1, ?_⟩
      show livePred targets (grid.getD q cellDefault) = true
      unfold livePred
      rw [h2, h3]
      rfl
    · intro hq
      rw [hposdef] at hq
      obtain ⟨hr, hlv⟩ := List.mem_filter.mp hq
      have hql : q < grid.length := List.mem_range.mp hr
      have hlv' : livePred targets (grid.getD q cellDefault) = true := hlv
      unfold livePred at hlv'
      rw [Bool.and_eq_true, Bool.not_eq_true'] at hlv'
      exact hcov q hql hlv'.1 hlv'.2
  have hperm : seq.Perm pos := (List.perm_ext_iff_of_nodup hnd hpnd).mpr hiff
  rw [← hpos]
  exact hperm.length_eq.symm

lemma runActivations_spec (targets : List String) :
    ∀ (seq : List Nat) (grid : List Cell),
      seq ≠ [] → seq.Nodup →
      (∀ p ∈ seq, p < grid.length ∧ (grid.getD p cellDefault).removed = false ∧
        targets.contains (grid.getD p cellDefault).sprite = true) →
      (∀ p, p < grid.length → (grid.getD p cellDefault).removed = false →
        targets.contains (grid.getD p cellDefault).sprite = true → p ∈ seq) →
      runActivations targets grid seq
        = List.replicate (seq.length - 1) Outcome.acceptContinue
            ++ [Outcome.acceptComplete] := by
  intro seq
  induction seq with
  | nil => intro grid hne; exact absurd rfl hne
  | cons p rest ih =>
    intro grid _ hnd hmem hcov
    obtain ⟨hp, hrm, htg⟩ := hmem p (List.mem_cons_self p rest)
    have hL := live_length_eq_seq targets grid (p :: rest) hnd hmem hcov
    have hbody := checkWin_body grid targets p htg
    have hdrop := live_length_set grid targets p hp hrm htg
    set grid1 := grid.set p ⟨(grid.getD p cellDefault).sprite, true⟩ with hg1
    have hL1 : (grid1.filter (livePred targets)).length = rest.length := by
      rw [List.length_cons] at hL
      omega
    have hrun : runActivations targets grid (p :: rest)
        = (checkWinClickToRemove grid p targets).1
          :: runActivations targets (checkWinClickToRemove grid p targets).2 rest := rfl
    rw [hrun]
    by_cases hrest0 : rest = []
    · have hzero : (grid1.filter (livePred targets)).length = 0 := by
        rw [hL1, hrest0]
        rfl
      rw [hbody, if_pos hzero]
      show Outcome.acceptComplete :: runActivations targets grid1 rest = _
      rw [hrest0]
      rfl
    · have hpos1 : 0 < rest.length := List.length_pos.mpr hrest0
      have hnz : ¬(grid1.filter (livePred targets)).length = 0 := by omega
      rw [hbody, if_neg hnz]
      show Outcome.acceptContinue :: runActivations targets grid1 rest = _
      have hndrest : rest.Nodup := (List.nodup_cons.mp hnd).2
      have hpnotin : p ∉ rest := (List.nodup_cons.mp hnd).1
      have hlen1 : grid1.length = grid.length := by
        rw [hg1]
        exact List.length_set ..
      have hgetD1 : ∀ j, j ≠ p → grid1.getD j cellDefault = grid.getD j cellDefault := by
        intro j hj
        rw [hg1]
        exact getD_set_ne grid cellDefault _ (fun h => hj h.symm)
      have hmem1 : ∀ j ∈ rest, j < grid1.length ∧
          (grid1.getD j cellDefault).removed = false ∧
          targets.contains (grid1.getD j cellDefault).sprite = true := by
        intro j hj
        have hjp : j ≠ p := fun h => hpnotin (h ▸ hj)
        obtain ⟨h1, h2, h3⟩ := hmem j (List.mem_cons_of_mem _ hj)
        rw [hlen1, hgetD1 j hjp]
        exact ⟨h1, h2, h3⟩
      have hcov1 : ∀ j, j < grid1.length → (grid1.getD j cellDefault).removed = false →
          targets.contains (grid1.getD j cellDefault).sprite = true → j ∈ rest := by
        intro j hjl hjr hjt
        by_cases hjp : j = p
        · rw [hjp, hg1, getD_set_self grid cellDefault _ hp] at hjr
          simp at hjr
        · rw [hgetD1 j hjp] at hjr hjt
          rw [hlen1] at hjl
          rcases List.mem_cons.mp (hcov j hjl hjr hjt) with h | h
          · exact absurd h hjp
          · exact h
      rw [ih grid1 hrest0 hndrest hmem1 hcov1]
      have hlr : (p :: rest).length - 1 = rest.length := by simp
      rw [hlr]
      obtain ⟨m, hm⟩ : ∃ m, rest.length = m + 1 := ⟨rest.length - 1, by omega⟩
      rw [hm]
      simp [List.replicate_succ]

/-- Claim C5: for a sequence of activations covering each unremoved target cell
exactly once, the evaluator answers `AcceptContinue` on every activation but
the last and `AcceptComplete` on exactly the final one; and any activation of
a cell whose sprite is not in the target set answers `Reject` with the grid
unchanged. -/
theorem evaluator_full_cover (targets : List String) (grid : List Cell)
    (seq : List Nat) (hne : seq ≠ []) (hnd : seq.Nodup)
    (hmem : ∀ p ∈ seq, p < grid.length ∧ (grid.getD p cellDefault).removed = false ∧
      targets.contains (grid.getD p cellDefault).sprite = true)
    (hcov : ∀ p, p < grid.length → (grid.getD p cellDefault).removed = false →
      targets.contains (grid.getD p cellDefault).sprite = true → p ∈ seq) :
    runActivations targets grid seq
        = List.replicate (seq.length - 1) Outcome.acceptContinue
            ++ [Outcome.acceptComplete] ∧
      ∀ (grid2 : List Cell) (j : Nat),
        targets.contains ((grid2.getD j cellDefault).sprite) = false →
        checkWinClickToRemove grid2 j targets = (Outcome.reject, grid2) := by
  refine ⟨runActivations_spec targets seq grid hne hnd hmem hcov, ?_⟩
  intro grid2 j hnt
  have hnot : (!targets.contains ((grid2.getD j cellDefault).sprite)) = true := by
    rw [hnt]
    rfl
  simp only [checkWinClickToRemove]
  rw [if_pos hnot]

theorem evaluator_full_cover_witness :
    (([0, 2] : List Nat) ≠ [] ∧ ([0, 2] : List Nat).Nodup ∧
      (∀ p ∈ ([0, 2] : List Nat),
        p < ([⟨"peach", false⟩, ⟨"apple-red", false⟩, ⟨"peach", false⟩] : List Cell).length ∧
        (([⟨"peach", false⟩, ⟨"apple-red", false⟩, ⟨"peach", false⟩] : List Cell).getD p
            cellDefault).removed = false ∧
        ["peach"].contains
          ((([⟨"peach", false⟩, ⟨"apple-red", false⟩, ⟨"peach", false⟩] : List Cell).getD p
            cellDefault).sprite) = true) ∧
      (∀ p, p < ([⟨"peach", false⟩, ⟨"apple-red", false⟩, ⟨"peach", false⟩] : List Cell).length →
        (([⟨"peach", false⟩, ⟨"apple-red", false⟩, ⟨"peach", false⟩] : List Cell).getD p
            cellDefault).removed = false →
        ["peach"].contains
          ((([⟨"peach", false⟩, ⟨"apple-red", false⟩, ⟨"peach", false⟩] : List Cell).getD p
            cellDefault).sprite) = true → p ∈ ([0, 2] : List Nat))) ∧
      (runActivations ["peach"] [⟨"peach", false⟩, ⟨"apple-red", false⟩, ⟨"peach", false⟩]
          [0, 2]
          = List.replicate (([0, 2] : List Nat).length - 1) Outcome.acceptContinue
              ++ [Outcome.acceptComplete] ∧
        ∀ (grid2 : List Cell) (j : Nat),
          ["peach"].contains ((grid2.getD j cellDefault).sprite) = false →
          checkWinClickToRemove grid2 j ["peach"] = (Outcome.reject, grid2)) :=
  ⟨by decide, evaluator_full_cover ["peach"]
    [⟨"peach", false⟩, ⟨"apple-red", false⟩, ⟨"peach", false⟩] [0, 2]
    (by decide) (by decide) (by decide) (by decide)⟩

end JuiceBox
